import Mathlib

/-!
Verification of the `Pagination` utility class (`src/index.ts`).

The TypeScript source is a stateless library of four pure operations:
`calculate`, `getPageNumbers`, `parseSearchParams` and `generateMetaTags`.
All numeric values are modelled as `Int` (the library clamps every input
into small integer ranges before using it).  `Math.ceil(totalItems / limit)`
is modelled as the exact integer ceiling of the division, which agrees with
the floating-point computation on the clamped integer ranges involved; the
lemma `ceilDiv_eq_ceil` below proves that the integer formula used really is
the ceiling of the rational division.
-/

/-- `interface PaginationParams`: `page?`, `limit?` optional, `totalItems` required. -/
structure PaginationParams where
  page : Option Int
  limit : Option Int
  totalItems : Int
deriving DecidableEq, Repr

/-- The `items : { start, end }` component of a pagination result.
`end` is a Lean keyword, so the field is called `stop` here. -/
structure ItemRange where
  start : Int
  stop : Int
deriving DecidableEq, Repr

/-- `interface PaginationResult`. -/
structure PaginationResult where
  currentPage : Int
  totalPages : Int
  pageSize : Int
  totalItems : Int
  hasNextPage : Bool
  hasPreviousPage : Bool
  nextPage : Option Int
  previousPage : Option Int
  offset : Int
  items : ItemRange
deriving DecidableEq, Repr

/-- Entry of the array returned by `getPageNumbers`: a page number or the
string `'...'` (an ellipsis marker). -/
inductive PageEntry where
  | num (n : Int)
  | ellipsis
deriving DecidableEq, Repr

/-- Result of `parseSearchParams`. -/
structure ParsedParams where
  page : Int
  limit : Int
deriving DecidableEq, Repr

/-- One element of the array returned by `generateMetaTags`. -/
structure MetaTag where
  property : String
  content : String
deriving DecidableEq, Repr

/-- Exact integer ceiling of `a / b` (for `b > 0`): models
`Math.ceil(a / b)` on integer arguments.  `/` on `Int` is Euclidean
division, which floors for a positive divisor, so `-(-a / b)` is the
ceiling.  `ceilDiv_eq_ceil` below proves this equals `⌈(a : ℚ) / b⌉`. -/
def ceilDiv (a b : Int) : Int := -(-a / b)

/-- The integers `a, a+1, ..., b` in order (empty when `b < a`): models the
`for (let i = start; i <= end; i++) pages.push(i)` loop. -/
def intRange (a b : Int) : List Int :=
  (List.range (b + 1 - a).toNat).map (fun i : Nat => a + (i : Int))

namespace Pagination

def DEFAULT_PAGE : Int := 1
def DEFAULT_LIMIT : Int := 10
def MAX_LIMIT : Int := 100

/-- `const page = Math.max(params.page ?? this.DEFAULT_PAGE, 1)` -/
def pageOf (params : PaginationParams) : Int :=
  max (params.page.getD DEFAULT_PAGE) 1

/-- `const limit = Math.min(Math.max(params.limit ?? this.DEFAULT_LIMIT, 1), this.MAX_LIMIT)` -/
def limitOf (params : PaginationParams) : Int :=
  min (max (params.limit.getD DEFAULT_LIMIT) 1) MAX_LIMIT

/-- `const totalItems = Math.max(params.totalItems, 0)` -/
def totalItemsOf (params : PaginationParams) : Int :=
  max params.totalItems 0

/-- `const totalPages = Math.ceil(totalItems / limit)` -/
def totalPagesOf (params : PaginationParams) : Int :=
  ceilDiv (totalItemsOf params) (limitOf params)

/-- `const currentPage = Math.min(page, Math.max(totalPages, 1))` -/
def currentPageOf (params : PaginationParams) : Int :=
  min (pageOf params) (max (totalPagesOf params) 1)

/-- `const offset = (currentPage - 1) * limit` -/
def offsetOf (params : PaginationParams) : Int :=
  (currentPageOf params - 1) * limitOf params

/-- `const hasNextPage = currentPage < totalPages` -/
def hasNextPageOf (params : PaginationParams) : Bool :=
  currentPageOf params < totalPagesOf params

/-- `const hasPreviousPage = currentPage > 1` -/
def hasPreviousPageOf (params : PaginationParams) : Bool :=
  1 < currentPageOf params

/-- `Pagination.calculate` (src/index.ts lines 42-73). -/
def calculate (params : PaginationParams) : PaginationResult :=
  { currentPage := currentPageOf params
    totalPages := totalPagesOf params
    pageSize := limitOf params
    totalItems := totalItemsOf params
    hasNextPage := hasNextPageOf params
    hasPreviousPage := hasPreviousPageOf params
    nextPage := if hasNextPageOf params then some (currentPageOf params + 1) else none
    previousPage := if hasPreviousPageOf params then some (currentPageOf params - 1) else none
    offset := offsetOf params
    items :=
      { start := if totalItemsOf params = 0 then 0 else offsetOf params + 1
        stop := min (offsetOf params + limitOf params) (totalItemsOf params) } }

/-- `const halfVisible = Math.floor(maxVisible / 2)` (`Int.fdiv` floors). -/
def halfVisibleOf (maxVisible : Int) : Int := Int.fdiv maxVisible 2

/-- `let start = Math.max(currentPage - halfVisible, 2)` -/
def startInit (currentPage maxVisible : Int) : Int :=
  max (currentPage - halfVisibleOf maxVisible) 2

/-- `let end = Math.min(currentPage + halfVisible, totalPages - 1)` -/
def endInit (currentPage totalPages maxVisible : Int) : Int :=
  min (currentPage + halfVisibleOf maxVisible) (totalPages - 1)

/-- The `(start, end)` pair after the "near start" adjustment
(`if (start <= 2) { end = Math.min(maxVisible, totalPages - 1); start = 2 }`). -/
def window1 (currentPage totalPages maxVisible : Int) : Int × Int :=
  if startInit currentPage maxVisible ≤ 2 then
    (2, min maxVisible (totalPages - 1))
  else
    (startInit currentPage maxVisible, endInit currentPage totalPages maxVisible)

/-- The `(start, end)` pair after the subsequent "near end" adjustment
(`if (end >= totalPages - 1) { start = Math.max(2, totalPages - maxVisible + 1); end = totalPages - 1 }`). -/
def pageWindow (currentPage totalPages maxVisible : Int) : Int × Int :=
  if totalPages - 1 ≤ (window1 currentPage totalPages maxVisible).2 then
    (max 2 (totalPages - maxVisible + 1), totalPages - 1)
  else
    window1 currentPage totalPages maxVisible

/-- `Pagination.getPageNumbers` (src/index.ts lines 82-134).  The default
value of `maxVisible` in the source is 5; here it is always passed. -/
def getPageNumbers (currentPage totalPages maxVisible : Int) : List PageEntry :=
  if totalPages ≤ maxVisible then
    (List.range totalPages.toNat).map (fun i : Nat => PageEntry.num ((i : Int) + 1))
  else
    [PageEntry.num 1]
    ++ (if 2 < (pageWindow currentPage totalPages maxVisible).1 then [PageEntry.ellipsis] else [])
    ++ (intRange (pageWindow currentPage totalPages maxVisible).1
          (pageWindow currentPage totalPages maxVisible).2).map PageEntry.num
    ++ (if (pageWindow currentPage totalPages maxVisible).2 < totalPages - 1 then [PageEntry.ellipsis] else [])
    ++ (if 1 < totalPages then [PageEntry.num totalPages] else [])

/-- Raw value of a query-string entry, as seen through JavaScript
`Number(searchParams.get(k))`: the entry may be absent (`get` returns
`null`, `Number(null) = 0`, falsy), a string that does not parse as a
number (`Number` gives `NaN`, falsy), or a numeric string with integer
value `n` (falsy exactly when `n = 0`). -/
inductive RawValue where
  | absent
  | nonNumeric
  | num (n : Int)
deriving DecidableEq, Repr

/-- `Number(raw) || d`: the default is substituted exactly when the raw
entry is absent, non-numeric, or a literal zero. -/
def numberOr (v : RawValue) (d : Int) : Int :=
  match v with
  | .absent => d
  | .nonNumeric => d
  | .num n => if n = 0 then d else n

/-- `Pagination.parseSearchParams` (src/index.ts lines 141-152), over the
`page` and `limit` entries of the query string. -/
def parseSearchParams (pageRaw limitRaw : RawValue) : ParsedParams :=
  { page := max (numberOr pageRaw DEFAULT_PAGE) 1
    limit := min (max (numberOr limitRaw DEFAULT_LIMIT) 1) MAX_LIMIT }

/-- JavaScript string interpolation of a `number | null` value. -/
def optNumStr (v : Option Int) : String :=
  match v with
  | some n => toString n
  | none => "null"

/-- `Pagination.generateMetaTags` (src/index.ts lines 160-181). -/
def generateMetaTags (baseUrl : String) (pagination : PaginationResult) : List MetaTag :=
  (if pagination.hasPreviousPage then
    [{ property := "prev", content := baseUrl ++ "?page=" ++ optNumStr pagination.previousPage }]
  else [])
  ++ (if pagination.hasNextPage then
    [{ property := "next", content := baseUrl ++ "?page=" ++ optNumStr pagination.nextPage }]
  else [])

/-- The numeric entries of a page-number sequence, in order. -/
def numEntries (l : List PageEntry) : List Int :=
  l.filterMap fun e =>
    match e with
    | .num n => some n
    | .ellipsis => none

/-- §4.2 of the spec, transcribed bullet by bullet (the second definition
for the refinement claim C3; `getPageNumbers` above is transcribed from the
source).  The two edge corrections are applied in the spec's stated order:
near-start first, then near-end on the possibly-updated values. -/
def pageNumbersSpec (currentPage totalPages maxVisible : Int) : List PageEntry :=
  if totalPages ≤ maxVisible then
    (List.range totalPages.toNat).map (fun i : Nat => PageEntry.num ((i : Int) + 1))
  else
    let half := Int.fdiv maxVisible 2
    let start1 := max (currentPage - half) 2
    let end1 := min (currentPage + half) (totalPages - 1)
    let start2 := if start1 ≤ 2 then 2 else start1
    let end2 := if start1 ≤ 2 then min maxVisible (totalPages - 1) else end1
    let start3 := if end2 ≥ totalPages - 1 then max 2 (totalPages - maxVisible + 1) else start2
    let end3 := if end2 ≥ totalPages - 1 then totalPages - 1 else end2
    [PageEntry.num 1]
    ++ (if start3 > 2 then [PageEntry.ellipsis] else [])
    ++ (intRange start3 end3).map PageEntry.num
    ++ (if end3 < totalPages - 1 then [PageEntry.ellipsis] else [])
    ++ (if totalPages > 1 then [PageEntry.num totalPages] else [])

end Pagination

/-! ### Basic lemmas about `calculate` -/

theorem ceilDiv_eq_ceil (a b : Int) (h : 0 < b) : ceilDiv a b = ⌈(a : ℚ) / (b : ℚ)⌉ := by
  have hd : ((b.toNat : ℕ) : ℚ) = (b : ℚ) := by
    have hb : (b.toNat : ℤ) = b := by omega
    exact_mod_cast hb
  have h1 : ⌊((-a : ℤ) : ℚ) / ((b.toNat : ℕ) : ℚ)⌋ = -a / (b.toNat : ℤ) :=
    Rat.floor_intCast_div_natCast (-a) b.toNat
  have h2 : (((-a : ℤ)) : ℚ) / ((b.toNat : ℕ) : ℚ) = -((a : ℚ) / (b : ℚ)) := by
    push_cast
    rw [hd]
    ring
  have h3 : ((b.toNat : ℤ)) = b := by omega
  rw [h2, h3] at h1
  rw [Int.floor_neg] at h1
  unfold ceilDiv
  omega

namespace Pagination

theorem one_le_limitOf (params : PaginationParams) : 1 ≤ limitOf params := by
  unfold limitOf MAX_LIMIT
  omega

theorem limitOf_le (params : PaginationParams) : limitOf params ≤ 100 := by
  unfold limitOf MAX_LIMIT
  omega

theorem one_le_pageOf (params : PaginationParams) : 1 ≤ pageOf params := by
  unfold pageOf
  omega

theorem one_le_currentPageOf (params : PaginationParams) : 1 ≤ currentPageOf params := by
  have h1 := one_le_pageOf params
  unfold currentPageOf
  omega

theorem currentPageOf_le (params : PaginationParams) :
    currentPageOf params ≤ max (totalPagesOf params) 1 := by
  unfold currentPageOf
  omega

theorem zero_le_offsetOf (params : PaginationParams) : 0 ≤ offsetOf params := by
  have h1 := one_le_currentPageOf params
  have h2 := one_le_limitOf params
  unfold offsetOf
  exact mul_nonneg (by omega) (by omega)

end Pagination

namespace Pagination

/-- C1: for every input with `totalItems ≥ 0` (the effective limit is
always in `[1,100]`, see `one_le_limitOf`/`limitOf_le`), `calculate`
returns `totalPages` equal to the ceiling of `totalItems` divided by the
effective limit, and `totalPages = 0` when `totalItems = 0`. -/
theorem calculate_totalPages_ceil (params : PaginationParams)
    (h : 0 ≤ params.totalItems) :
    (calculate params).totalPages =
      ⌈(params.totalItems : ℚ) / ((calculate params).pageSize : ℚ)⌉ ∧
    (params.totalItems = 0 → (calculate params).totalPages = 0) := by
  have hti : totalItemsOf params = params.totalItems := by
    unfold totalItemsOf
    omega
  have hlim := one_le_limitOf params
  constructor
  · show totalPagesOf params = ⌈(params.totalItems : ℚ) / ((limitOf params : ℤ) : ℚ)⌉
    unfold totalPagesOf
    rw [hti, ceilDiv_eq_ceil _ _ (by omega)]
  · intro h0
    show totalPagesOf params = 0
    unfold totalPagesOf
    rw [hti, h0]
    unfold ceilDiv
    simp

/-- Witness for C1 at `page = none`, `limit = none`, `totalItems = 25`. -/
theorem calculate_totalPages_ceil_witness :
    0 ≤ (25 : Int) ∧
    ((calculate ⟨none, none, 25⟩).totalPages =
      ⌈((25 : Int) : ℚ) / (((calculate ⟨none, none, 25⟩).pageSize : ℤ) : ℚ)⌉ ∧
    ((25 : Int) = 0 → (calculate ⟨none, none, 25⟩).totalPages = 0)) :=
  ⟨by decide, calculate_totalPages_ceil ⟨none, none, 25⟩ (by decide)⟩

/-- C2: for every input, `1 ≤ currentPage ≤ max(totalPages, 1)`: an
out-of-range page request is silently capped, never an error
(`calculate` is a total function). -/
theorem calculate_currentPage_bounds (params : PaginationParams) :
    1 ≤ (calculate params).currentPage ∧
    (calculate params).currentPage ≤ max (calculate params).totalPages 1 :=
  ⟨one_le_currentPageOf params, currentPageOf_le params⟩

/-- C5: `itemRange.end = min(offset + pageSize, totalItems)`,
`itemRange.start = 0` iff `totalItems = 0` (else `offset + 1`), and the
range is `{0, 0}` whenever `totalItems = 0`. -/
theorem calculate_itemRange (params : PaginationParams) :
    (calculate params).items.stop =
      min ((calculate params).offset + (calculate params).pageSize)
        (calculate params).totalItems ∧
    ((calculate params).items.start = 0 ↔ (calculate params).totalItems = 0) ∧
    ((calculate params).totalItems ≠ 0 →
      (calculate params).items.start = (calculate params).offset + 1) ∧
    ((calculate params).totalItems = 0 → (calculate params).items = ⟨0, 0⟩) := by
  have hoff := zero_le_offsetOf params
  have hlim := one_le_limitOf params
  refine ⟨rfl, ?_, ?_, ?_⟩
  · show (if totalItemsOf params = 0 then 0 else offsetOf params + 1) = 0 ↔
      totalItemsOf params = 0
    split
    · simp_all
    · constructor
      · intro h0
        omega
      · intro h0
        simp_all
  · intro hne
    show (if totalItemsOf params = 0 then 0 else offsetOf params + 1) = offsetOf params + 1
    rw [if_neg (show totalItemsOf params ≠ 0 from hne)]
  · intro h0
    have h0' : totalItemsOf params = 0 := h0
    show ItemRange.mk (if totalItemsOf params = 0 then 0 else offsetOf params + 1)
      (min (offsetOf params + limitOf params) (totalItemsOf params)) = ⟨0, 0⟩
    rw [if_pos h0', h0']
    have : min (offsetOf params + limitOf params) 0 = 0 := by omega
    rw [this]

/-- C6: `hasNextPage` holds exactly when `currentPage < totalPages`,
`hasPreviousPage` exactly when `currentPage > 1`, and `nextPage`
(resp. `previousPage`) is `null` exactly when the corresponding flag is
false. -/
theorem calculate_flags (params : PaginationParams) :
    ((calculate params).hasNextPage = true ↔
      (calculate params).currentPage < (calculate params).totalPages) ∧
    ((calculate params).hasPreviousPage = true ↔
      1 < (calculate params).currentPage) ∧
    ((calculate params).nextPage = none ↔ (calculate params).hasNextPage = false) ∧
    ((calculate params).previousPage = none ↔
      (calculate params).hasPreviousPage = false) := by
  refine ⟨by simp [calculate, hasNextPageOf], by simp [calculate, hasPreviousPageOf], ?_, ?_⟩
  · show (if hasNextPageOf params then some (currentPageOf params + 1) else none) = none ↔
      hasNextPageOf params = false
    cases h : hasNextPageOf params <;> simp
  · show (if hasPreviousPageOf params then some (currentPageOf params - 1) else none) = none ↔
      hasPreviousPageOf params = false
    cases h : hasPreviousPageOf params <;> simp

/-- C8: `offset = (currentPage - 1) * pageSize` for every input. -/
theorem calculate_offset_eq (params : PaginationParams) :
    (calculate params).offset =
      ((calculate params).currentPage - 1) * (calculate params).pageSize :=
  rfl

/-- C9: when `hasNextPage` is true, `nextPage = currentPage + 1`; when
`hasPreviousPage` is true, `previousPage = currentPage - 1`. -/
theorem calculate_adjacent_pages (params : PaginationParams) :
    ((calculate params).hasNextPage = true →
      (calculate params).nextPage = some ((calculate params).currentPage + 1)) ∧
    ((calculate params).hasPreviousPage = true →
      (calculate params).previousPage = some ((calculate params).currentPage - 1)) := by
  constructor
  · intro h
    show (if hasNextPageOf params then some (currentPageOf params + 1) else none) =
      some (currentPageOf params + 1)
    rw [if_pos (by exact h)]
  · intro h
    show (if hasPreviousPageOf params then some (currentPageOf params - 1) else none) =
      some (currentPageOf params - 1)
    rw [if_pos (by exact h)]

/-- Witness for C9 at `page = 2`, `limit = 10`, `totalItems = 30`
(both flags true there). -/
theorem calculate_adjacent_pages_witness :
    (calculate ⟨some 2, some 10, 30⟩).nextPage =
      some ((calculate ⟨some 2, some 10, 30⟩).currentPage + 1) ∧
    (calculate ⟨some 2, some 10, 30⟩).previousPage =
      some ((calculate ⟨some 2, some 10, 30⟩).currentPage - 1) :=
  ⟨(calculate_adjacent_pages ⟨some 2, some 10, 30⟩).1 (by decide),
   (calculate_adjacent_pages ⟨some 2, some 10, 30⟩).2 (by decide)⟩

/-- C4: `parseSearchParams` substitutes the defaults (page 1, limit 10)
whenever the raw entry is absent, non-numeric or a literal zero, then
clamps `page` to `≥ 1` and `limit` to `[1,100]`, and never fails (it is a
total function); in particular `{page: "abc", limit: "-5"}` parses to
`{page: 1, limit: 1}`. -/
theorem parseSearchParams_defaults_and_clamps (pageRaw limitRaw : RawValue) :
    ((pageRaw = RawValue.absent ∨ pageRaw = RawValue.nonNumeric ∨
        pageRaw = RawValue.num 0) →
      (parseSearchParams pageRaw limitRaw).page = 1) ∧
    ((limitRaw = RawValue.absent ∨ limitRaw = RawValue.nonNumeric ∨
        limitRaw = RawValue.num 0) →
      (parseSearchParams pageRaw limitRaw).limit = 10) ∧
    1 ≤ (parseSearchParams pageRaw limitRaw).page ∧
    1 ≤ (parseSearchParams pageRaw limitRaw).limit ∧
    (parseSearchParams pageRaw limitRaw).limit ≤ 100 ∧
    parseSearchParams RawValue.nonNumeric (RawValue.num (-5)) = ⟨1, 1⟩ := by
  refine ⟨?_, ?_, ?_, ?_, ?_, by decide⟩
  · rintro (rfl | rfl | rfl) <;> rfl
  · rintro (rfl | rfl | rfl) <;> rfl
  · show 1 ≤ max (numberOr pageRaw DEFAULT_PAGE) 1
    omega
  · show 1 ≤ min (max (numberOr limitRaw DEFAULT_LIMIT) 1) MAX_LIMIT
    unfold MAX_LIMIT
    omega
  · show min (max (numberOr limitRaw DEFAULT_LIMIT) 1) MAX_LIMIT ≤ 100
    unfold MAX_LIMIT
    omega

/-- Witness for C4 at `page` absent and `limit` a literal zero. -/
theorem parseSearchParams_defaults_witness :
    (parseSearchParams RawValue.absent (RawValue.num 0)).page = 1 ∧
    (parseSearchParams RawValue.absent (RawValue.num 0)).limit = 10 :=
  ⟨(parseSearchParams_defaults_and_clamps RawValue.absent (RawValue.num 0)).1
      (Or.inl rfl),
   (parseSearchParams_defaults_and_clamps RawValue.absent (RawValue.num 0)).2.1
      (Or.inr (Or.inr rfl))⟩

/-- C7: `generateMetaTags` emits a `prev` entry with URL
`baseUrl ++ "?page=" ++ previousPage` iff `hasPreviousPage`, a `next`
entry with URL `baseUrl ++ "?page=" ++ nextPage` iff `hasNextPage`, the
`prev` entry precedes the `next` entry when both are present, and no
other entries are emitted. -/
theorem generateMetaTags_links (baseUrl : String) (r : PaginationResult) :
    (r.hasPreviousPage = true ↔
      MetaTag.mk "prev" (baseUrl ++ "?page=" ++ optNumStr r.previousPage) ∈
        generateMetaTags baseUrl r) ∧
    (r.hasNextPage = true ↔
      MetaTag.mk "next" (baseUrl ++ "?page=" ++ optNumStr r.nextPage) ∈
        generateMetaTags baseUrl r) ∧
    (r.hasPreviousPage = true → r.hasNextPage = true →
      generateMetaTags baseUrl r =
        [MetaTag.mk "prev" (baseUrl ++ "?page=" ++ optNumStr r.previousPage),
         MetaTag.mk "next" (baseUrl ++ "?page=" ++ optNumStr r.nextPage)]) ∧
    (∀ t ∈ generateMetaTags baseUrl r,
      t = MetaTag.mk "prev" (baseUrl ++ "?page=" ++ optNumStr r.previousPage) ∨
      t = MetaTag.mk "next" (baseUrl ++ "?page=" ++ optNumStr r.nextPage)) := by
  have hpn : "prev" ≠ "next" := by decide
  cases hp : r.hasPreviousPage <;> cases hn : r.hasNextPage <;>
    simp_all [generateMetaTags, MetaTag.mk.injEq]

/-- Witness for C7 on a concrete result with both flags true. -/
theorem generateMetaTags_links_witness :
    generateMetaTags "https://x/y" ⟨2, 3, 10, 30, true, true, some 3, some 1, 10, ⟨11, 20⟩⟩ =
      [MetaTag.mk "prev" ("https://x/y" ++ "?page=" ++
        optNumStr (PaginationResult.previousPage ⟨2, 3, 10, 30, true, true, some 3, some 1, 10, ⟨11, 20⟩⟩)),
       MetaTag.mk "next" ("https://x/y" ++ "?page=" ++
        optNumStr (PaginationResult.nextPage ⟨2, 3, 10, 30, true, true, some 3, some 1, 10, ⟨11, 20⟩⟩))] :=
  (generateMetaTags_links "https://x/y"
    ⟨2, 3, 10, 30, true, true, some 3, some 1, 10, ⟨11, 20⟩⟩).2.2.1 rfl rfl

/-! ### Lemmas about `getPageNumbers` -/

theorem window1_fst_ge (currentPage totalPages maxVisible : Int) :
    2 ≤ (window1 currentPage totalPages maxVisible).1 := by
  unfold window1 startInit
  split_ifs <;> simp

theorem window1_snd_le (currentPage totalPages maxVisible : Int) :
    (window1 currentPage totalPages maxVisible).2 ≤ totalPages - 1 := by
  unfold window1 endInit
  split_ifs <;> simp

theorem pageWindow_fst_ge (currentPage totalPages maxVisible : Int) :
    2 ≤ (pageWindow currentPage totalPages maxVisible).1 := by
  have h := window1_fst_ge currentPage totalPages maxVisible
  unfold pageWindow
  split_ifs <;> simp_all

theorem pageWindow_snd_le (currentPage totalPages maxVisible : Int) :
    (pageWindow currentPage totalPages maxVisible).2 ≤ totalPages - 1 := by
  have h := window1_snd_le currentPage totalPages maxVisible
  unfold pageWindow
  split_ifs <;> simp_all

theorem mem_intRange {x a b : Int} (h : x ∈ intRange a b) : a ≤ x ∧ x ≤ b := by
  unfold intRange at h
  simp only [List.mem_map, List.mem_range] at h
  obtain ⟨i, hi, rfl⟩ := h
  omega

theorem pairwise_intRange (a b : Int) : (intRange a b).Pairwise (· < ·) := by
  unfold intRange
  exact (List.pairwise_lt_range _).map _ (fun i j hij => by omega)

theorem numEntries_append (l1 l2 : List PageEntry) :
    numEntries (l1 ++ l2) = numEntries l1 ++ numEntries l2 :=
  List.filterMap_append l1 l2 _

theorem numEntries_ellipsis_if (c : Prop) [Decidable c] :
    numEntries (if c then [PageEntry.ellipsis] else []) = [] := by
  split <;> rfl

theorem numEntries_map_num (l : List Int) :
    numEntries (l.map PageEntry.num) = l := by
  induction l with
  | nil => rfl
  | cons a t ih =>
    simp only [List.map_cons, numEntries, List.filterMap_cons] at ih ⊢
    rw [ih]

theorem numEntries_map_succ (l : List ℕ) :
    numEntries (l.map (fun i : Nat => PageEntry.num ((i : Int) + 1))) =
      l.map (fun i : Nat => ((i : Int) + 1)) := by
  induction l with
  | nil => rfl
  | cons a t ih =>
    simp only [List.map_cons, numEntries, List.filterMap_cons] at ih ⊢
    rw [ih]

/-- C10: for every `currentPage`, `totalPages ≥ 0` and `maxVisible ≥ 1`,
the numeric entries of `getPageNumbers` are strictly increasing (hence
contain no duplicates): in the compressed case the middle window stays
inside `[2, totalPages - 1]` (see `pageWindow_fst_ge` /
`pageWindow_snd_le`), so it never repeats page 1 or page `totalPages`. -/
theorem numEntries_nil : numEntries [] = [] := rfl

theorem numEntries_ellipsis : numEntries [PageEntry.ellipsis] = [] := rfl

theorem numEntries_single (n : Int) : numEntries [PageEntry.num n] = [n] := rfl

theorem numEntries_cons_num (n : Int) (l : List PageEntry) :
    numEntries (PageEntry.num n :: l) = n :: numEntries l := rfl

theorem numEntries_cons_ellipsis (l : List PageEntry) :
    numEntries (PageEntry.ellipsis :: l) = numEntries l := rfl

theorem pairwise_entries (s e tp : Int) (hs : 2 ≤ s) (he : e ≤ tp - 1)
    (htp : 1 < tp) : (1 :: (intRange s e ++ [tp])).Pairwise (· < ·) := by
  rw [List.pairwise_cons]
  constructor
  · intro x hx
    rcases List.mem_append.mp hx with h1 | h2
    · have := mem_intRange h1
      omega
    · have : x = tp := List.mem_singleton.mp h2
      omega
  · rw [List.pairwise_append]
    refine ⟨pairwise_intRange _ _, List.pairwise_singleton _ _, ?_⟩
    intro x hx y hy
    have h1 := mem_intRange hx
    have h2 : y = tp := List.mem_singleton.mp hy
    omega

theorem getPageNumbers_entries_increasing (currentPage totalPages maxVisible : Int)
    (htp : 0 ≤ totalPages) (hmv : 1 ≤ maxVisible) :
    (numEntries (getPageNumbers currentPage totalPages maxVisible)).Pairwise (· < ·) ∧
    (numEntries (getPageNumbers currentPage totalPages maxVisible)).Nodup := by
  have key : (numEntries (getPageNumbers currentPage totalPages maxVisible)).Pairwise
      (· < ·) := by
    by_cases h : totalPages ≤ maxVisible
    · unfold getPageNumbers
      rw [if_pos h, numEntries_map_succ]
      exact (List.pairwise_lt_range _).map _ (fun i j hij => by omega)
    · push_neg at h
      have hs := pageWindow_fst_ge currentPage totalPages maxVisible
      have he := pageWindow_snd_le currentPage totalPages maxVisible
      have h1 : 1 < totalPages := by omega
      unfold getPageNumbers
      rw [if_neg (by omega), if_pos h1]
      split_ifs with h2 h3 h4 <;>
        simp only [numEntries_append, numEntries_nil, numEntries_ellipsis,
          numEntries_single, numEntries_cons_num, numEntries_cons_ellipsis,
          numEntries_map_num, List.append_nil, List.nil_append,
          List.cons_append, List.singleton_append] <;>
        exact pairwise_entries _ _ _ hs he h1
  exact ⟨key, key.imp (fun h => ne_of_lt h)⟩

/-- Witness for C10 at `currentPage = 50`, `totalPages = 100`,
`maxVisible = 5`. -/
theorem getPageNumbers_entries_increasing_witness :
    (0 : Int) ≤ 100 ∧ (1 : Int) ≤ 5 ∧
    (numEntries (getPageNumbers 50 100 5)).Pairwise (· < ·) ∧
    (numEntries (getPageNumbers 50 100 5)).Nodup :=
  ⟨by decide, by decide, getPageNumbers_entries_increasing 50 100 5 (by decide) (by decide)⟩

/-- C3: for every `currentPage`, `totalPages` and `maxVisible`,
`getPageNumbers` returns exactly the sequence of the §4.2 algorithm
(`pageNumbersSpec`, transcribed from the spec with the near-start
correction applied before the near-end correction); in particular
`getPageNumbers 50 100 5 = [1, "...", 48, 49, 50, 51, 52, "...", 100]`. -/
theorem getPageNumbers_matches_spec :
    (∀ currentPage totalPages maxVisible : Int,
      getPageNumbers currentPage totalPages maxVisible =
        pageNumbersSpec currentPage totalPages maxVisible) ∧
    getPageNumbers 50 100 5 =
      [PageEntry.num 1, PageEntry.ellipsis, PageEntry.num 48, PageEntry.num 49,
       PageEntry.num 50, PageEntry.num 51, PageEntry.num 52, PageEntry.ellipsis,
       PageEntry.num 100] := by
  constructor
  · intro cp tp mv
    unfold getPageNumbers pageNumbersSpec pageWindow window1 startInit endInit halfVisibleOf
    by_cases h0 : tp ≤ mv
    · rw [if_pos h0, if_pos h0]
    · rw [if_neg h0, if_neg h0]
      simp only [ge_iff_le, gt_iff_lt]
      split_ifs <;> rfl
  · decide

end Pagination

/-- §8 example: `calculate(page=1, limit=10, totalItems=0)`. -/
theorem spec_example_calculate_empty : Pagination.calculate ⟨some 1, some 10, 0⟩ =
    ⟨1, 0, 10, 0, false, false, none, none, 0, ⟨0, 0⟩⟩ := by decide

/-- §8 example: `calculate(page=5, limit=10, totalItems=20)` clamps the page. -/
theorem spec_example_calculate_clamped : Pagination.calculate ⟨some 5, some 10, 20⟩ =
    ⟨2, 2, 10, 20, false, true, none, some 1, 10, ⟨11, 20⟩⟩ := by decide

/-- §8 example: `pageNumbers(currentPage=1, totalPages=3, maxVisible=5)`. -/
theorem spec_example_pageNumbers_small : Pagination.getPageNumbers 1 3 5 =
    [.num 1, .num 2, .num 3] := by decide
